import Mathlib

/-!
# Shallow embedding of the codegram backend (controllers + prisma schema)

Definitions are translated from the TypeScript sources:
* `src/src/controllers/docController.ts` (`getDocById`, `updateDoc`, `deleteDoc`)
* `src/src/controllers/followController.ts` (`toggleFollow`)
* `src/src/controllers/commentController.ts` (`commentSchema`, `createComment`)
* `src/src/controllers/moderationController.ts` (`blockSchema`, `reportSchema`,
  `toggleBlock`, `createReport`)
* the socket gateway (`checkRateLimit` and the room-event handlers)
* the passport GitHub verify callback and `githubCallback` redirect
* the prisma schema (entity shapes and foreign keys)

HTTP responses are modelled as a status code (`Nat`) paired with the database
state after the handler ran.  Timestamps are natural numbers.  `prisma`
collections are lists; `findUnique`/`findFirst` become `List.find?`.
-/

namespace Codegram

abbrev Id := String

/-- Prisma `Doc` model (schema.prisma): author, visibility, timestamps. -/
structure Doc where
  id : Id
  authorId : Id
  title : String
  content : String
  isPublic : Bool
  createdAt : Nat
  updatedAt : Nat
  deriving Repr, DecidableEq

/-- Prisma `Snippet` model (fields used by the controllers). -/
structure Snippet where
  id : Id
  authorId : Id
  isPublic : Bool
  deriving Repr, DecidableEq

/-- Prisma `Bug` model: carries an expiry timestamp instead of a visibility flag. -/
structure Bug where
  id : Id
  authorId : Id
  expiresAt : Nat
  deriving Repr, DecidableEq

/-- Prisma `Comment` model: exactly the nullable target foreign keys of the schema. -/
structure Comment where
  id : Id
  authorId : Id
  content : String
  snippetId : Option Id
  docId : Option Id
  bugId : Option Id
  parentId : Option Id
  deriving Repr, DecidableEq

/-- Prisma `Like` model. -/
structure Like where
  id : Id
  userId : Id
  snippetId : Option Id
  docId : Option Id
  bugId : Option Id
  deriving Repr, DecidableEq

/-- Prisma `Bookmark` model. -/
structure Bookmark where
  id : Id
  userId : Id
  snippetId : Option Id
  docId : Option Id
  bugId : Option Id
  deriving Repr, DecidableEq

/-- Prisma `Follow` model: directed edge follower → following. -/
structure Follow where
  id : Id
  followerId : Id
  followingId : Id
  deriving Repr, DecidableEq

/-- Prisma `BlockedUser` model: directed edge blocker → blocked. -/
structure BlockedUser where
  id : Id
  blockerId : Id
  blockedId : Id
  deriving Repr, DecidableEq

/-- Report reasons (schema.prisma enum `ReportReason`). -/
inductive ReportReason
  | SPAM | HARASSMENT | INAPPROPRIATE_CONTENT | COPYRIGHT_VIOLATION | FAKE_ACCOUNT | OTHER
  deriving Repr, DecidableEq

/-- Prisma `Report` model. -/
structure Report where
  id : Id
  reporterId : Id
  reportedId : Id
  reason : ReportReason
  description : Option String
  snippetId : Option Id
  docId : Option Id
  bugId : Option Id
  commentId : Option Id
  deriving Repr, DecidableEq

/-- Notification types (schema.prisma enum `NotificationType`). -/
inductive NotificationType
  | LIKE | COMMENT | FOLLOW | REPLY | BOOKMARK | BUG_STATUS_UPDATE
  deriving Repr, DecidableEq

/-- Prisma `Notification` model (fields the embedded controllers write). -/
structure Notification where
  ntype : NotificationType
  recipientId : Id
  senderId : Id
  commentId : Option Id
  deriving Repr, DecidableEq

/-- Prisma `User` model (fields used by the embedded handlers).  `bio` is
nullable in the schema (`String?`). -/
structure User where
  id : Id
  githubId : Id
  username : String
  email : String
  bio : Option String
  createdAt : Nat
  updatedAt : Nat
  deriving Repr, DecidableEq

/-- The relational store: one list per prisma model the claims touch. -/
structure DB where
  users : List User
  snippets : List Snippet
  docs : List Doc
  bugs : List Bug
  comments : List Comment
  likes : List Like
  bookmarks : List Bookmark
  follows : List Follow
  blockedUsers : List BlockedUser
  reports : List Report
  notifications : List Notification
  deriving Repr, DecidableEq

/-- `prisma.doc.findUnique({ where: { id } })`. -/
def findDoc (db : DB) (id : Id) : Option Doc :=
  db.docs.find? (fun d => d.id == id)

/-- `prisma.user.findUnique({ where: { id } })`. -/
def findUser (db : DB) (id : Id) : Option User :=
  db.users.find? (fun u => u.id == id)

/-! ## docController.ts -/

/-- The statements placed inside `prisma.$transaction([...])` by `deleteDoc`. -/
inductive TxOp
  | deleteLikesByDoc (docId : Id)
  | deleteCommentsByDoc (docId : Id)
  | deleteBookmarksByDoc (docId : Id)
  | deleteDocById (docId : Id)
  deriving Repr, DecidableEq

/-- One statement of the transaction.  `deleteMany` never fails; `doc.delete`
fails (throws) when the row is absent, which aborts the transaction. -/
def applyTxOp (db : DB) : TxOp → Option DB
  | .deleteLikesByDoc d =>
      some { db with likes := db.likes.filter (fun l => l.docId != some d) }
  | .deleteCommentsByDoc d =>
      some { db with comments := db.comments.filter (fun c => c.docId != some d) }
  | .deleteBookmarksByDoc d =>
      some { db with bookmarks := db.bookmarks.filter (fun x => x.docId != some d) }
  | .deleteDocById d =>
      if (findDoc db d).isSome then
        some { db with docs := db.docs.filter (fun x => x.id != d) }
      else none

/-- `prisma.$transaction`: the listed statements run all-or-nothing.  A `none`
result means the transaction rolled back and the store is unchanged. -/
def runTransaction (db : DB) (ops : List TxOp) : Option DB :=
  ops.foldlM applyTxOp db

/-- `deleteDoc` (docController.ts lines 244-267): 404 when missing, 403 when
the caller is not the author, otherwise a single transaction deleting the
dependent likes, comments and bookmarks and then the doc itself.  A rolled-back
transaction would surface as a 500 with the store untouched. -/
def deleteDoc (db : DB) (userId : Id) (id : Id) : Nat × DB :=
  match findDoc db id with
  | none => (404, db)
  | some doc =>
    if doc.authorId != userId then (403, db)
    else
      match runTransaction db
        [.deleteLikesByDoc id, .deleteCommentsByDoc id,
         .deleteBookmarksByDoc id, .deleteDocById id] with
      | some db' => (200, db')
      | none => (500, db)

/-- `getDocById` (docController.ts lines 118-161): 404 when missing, 403 when
the doc is private and the caller (possibly anonymous) is not the author,
otherwise 200.  Reads never change the store. -/
def getDocById (db : DB) (currentUserId : Option Id) (id : Id) : Nat × DB :=
  match findDoc db id with
  | none => (404, db)
  | some doc =>
    if !doc.isPublic && some doc.authorId != currentUserId then (403, db)
    else (200, db)

/-- Raw request body for doc create/update, before `docSchema.parse`. -/
structure RawDocBody where
  title : Option String
  content : Option String
  isPublic : Option Bool
  deriving Repr, DecidableEq

/-- Validated doc body. -/
structure DocBody where
  title : String
  content : String
  isPublic : Bool
  deriving Repr, DecidableEq

/-- `docSchema` (docController.ts lines 39-43): title 1..255 chars, content
non-empty, isPublic defaulting to true.  `none` models a thrown `ZodError`. -/
def docSchemaParse (b : RawDocBody) : Option DocBody :=
  match b.title, b.content with
  | some t, some c =>
    if 1 ≤ t.length && t.length ≤ 255 && 1 ≤ c.length then
      some ⟨t, c, b.isPublic.getD true⟩
    else none
  | _, _ => none

/-- `updateDoc` (docController.ts lines 212-236): parse the body, 404 when the
doc is missing, 403 when the caller is not the author, else overwrite the
validated fields and bump `updatedAt`.  `none` models the `ZodError` thrown by
`docSchema.parse` escaping to the outer error middleware. -/
def updateDoc (db : DB) (now : Nat) (userId : Id) (id : Id) (raw : RawDocBody) :
    Option (Nat × DB) :=
  match docSchemaParse raw with
  | none => none
  | some body =>
    match findDoc db id with
    | none => some (404, db)
    | some doc =>
      if doc.authorId != userId then some (403, db)
      else
        some (200, { db with docs := db.docs.map (fun d =>
          if d.id == id then
            { d with title := body.title, content := body.content,
                     isPublic := body.isPublic, updatedAt := now }
          else d) })

/-! ## followController.ts -/

/-- `prisma.follow.findUnique({ where: { followerId_followingId } })`. -/
def findFollow (db : DB) (followerId followingId : Id) : Option Follow :=
  db.follows.find? (fun f => f.followerId == followerId && f.followingId == followingId)

/-- `toggleFollow` (followController.ts lines 7-69): reject self-follow (400),
404 when the target user is missing, then delete the edge when present
(no notification) or create it plus a FOLLOW notification.  `freshId` stands
for the cuid prisma mints for a created row. -/
def toggleFollow (db : DB) (followerId followingId : Id) (freshId : Id) : Nat × DB :=
  if followerId == followingId then (400, db)
  else
    match findUser db followingId with
    | none => (404, db)
    | some _ =>
      match findFollow db followerId followingId with
      | some existing =>
        (200, { db with follows := db.follows.filter (fun f => f.id != existing.id) })
      | none =>
        (200, { db with
          follows := ⟨freshId, followerId, followingId⟩ :: db.follows,
          notifications :=
            ⟨.FOLLOW, followingId, followerId, none⟩ :: db.notifications })

/-- All follow edges of the store for one ordered (follower, following) pair. -/
def pairEdges (db : DB) (followerId followingId : Id) : List Follow :=
  db.follows.filter (fun f => f.followerId == followerId && f.followingId == followingId)

/-- Iterate `toggleFollow` for the same ordered pair, the k-th call minting the
row id `ids k`. -/
def iterToggle (followerId followingId : Id) (ids : Nat → Id) : Nat → DB → DB
  | 0, db => db
  | n + 1, db => (toggleFollow (iterToggle followerId followingId ids n db)
      followerId followingId (ids n)).2

/-! ## commentController.ts -/

/-- Raw request body for comment creation, before `commentSchema.parse`.
A `some` field is a key present in the JSON body. -/
structure RawCommentBody where
  content : Option String
  snippetId : Option String
  docId : Option String
  bugId : Option String
  parentId : Option String
  deriving Repr, DecidableEq

/-- JavaScript truthiness of an optional string, as used by
`[data.snippetId, data.docId, data.bugId].filter(Boolean)` and by the
`if (validatedData.snippetId)` guards: absent and `""` are both falsy. -/
def truthy : Option String → Bool
  | none => false
  | some s => s != ""

/-- Validated comment body (the refined schema keeps all fields as given). -/
structure CommentBody where
  content : String
  snippetId : Option String
  docId : Option String
  bugId : Option String
  parentId : Option String
  deriving Repr, DecidableEq

/-- `commentSchema` (commentController.ts lines 7-21): content 1..1000 chars,
ids optional strings, refined so that exactly one of the three target ids is
truthy (`filter(Boolean).length === 1`).  `none` models a thrown `ZodError`. -/
def commentSchemaParse (b : RawCommentBody) : Option CommentBody :=
  match b.content with
  | none => none
  | some c =>
    if 1 ≤ c.length && c.length ≤ 1000 &&
       ((if truthy b.snippetId then 1 else 0) +
        (if truthy b.docId then 1 else 0) +
        (if truthy b.bugId then 1 else 0) == 1) then
      some ⟨c, b.snippetId, b.docId, b.bugId, b.parentId⟩
    else none

/-- The sequential target checks of `createComment` (lines 33-73): each branch
runs when its id is truthy; a failed lookup short-circuits with the matching
status (404 / 403 / 410).  On success it yields `contentAuthorId`. -/
def resolveTarget (db : DB) (now : Nat) (v : CommentBody) : Except Nat (Option Id) := do
  let a1 : Option Id ←
    if truthy v.snippetId then
      match db.snippets.find? (fun s => some s.id == v.snippetId) with
      | none => .error 404
      | some s => if !s.isPublic then .error 403 else .ok (some s.authorId)
    else .ok none
  let a2 : Option Id ←
    if truthy v.docId then
      match db.docs.find? (fun d => some d.id == v.docId) with
      | none => .error 404
      | some d => if !d.isPublic then .error 403 else .ok (some d.authorId)
    else .ok a1
  let a3 : Option Id ←
    if truthy v.bugId then
      match db.bugs.find? (fun bug => some bug.id == v.bugId) with
      | none => .error 404
      | some bug =>
        if bug.expiresAt < now then .error 410 else .ok (some bug.authorId)
    else .ok a2
  .ok a3

/-- Foreign-key constraints of the `comments` table (schema.prisma): every set
reference must name an existing row, else `prisma.comment.create` throws. -/
def commentFKOk (db : DB) (c : Comment) : Bool :=
  (db.users.any (fun u => u.id == c.authorId)) &&
  (match c.snippetId with
   | none => true
   | some s => db.snippets.any (fun x => x.id == s)) &&
  (match c.docId with
   | none => true
   | some d => db.docs.any (fun x => x.id == d)) &&
  (match c.bugId with
   | none => true
   | some b => db.bugs.any (fun x => x.id == b)) &&
  (match c.parentId with
   | none => true
   | some p => db.comments.any (fun x => x.id == p))

/-- `createComment` (commentController.ts lines 25-118): parse (ZodError →
400), run the three target checks, insert the comment, then create a
COMMENT/REPLY notification for the content author unless self-commenting.
A create that violates a foreign key throws and falls into the catch-all
(non-Zod error → 500) with no row inserted. -/
def createComment (db : DB) (now : Nat) (senderId : Id) (freshId : Id)
    (raw : RawCommentBody) : Nat × DB :=
  match commentSchemaParse raw with
  | none => (400, db)
  | some v =>
    match resolveTarget db now v with
    | .error s => (s, db)
    | .ok contentAuthorId =>
      let c : Comment :=
        ⟨freshId, senderId, v.content, v.snippetId, v.docId, v.bugId, v.parentId⟩
      if commentFKOk db c then
        let db1 := { db with comments := c :: db.comments }
        let db2 :=
          match contentAuthorId with
          | some a =>
            if a != senderId then
              { db1 with notifications :=
                  ⟨(if v.parentId.isSome then .REPLY else .COMMENT),
                   a, senderId, some freshId⟩ :: db1.notifications }
            else db1
          | none => db1
        (201, db2)
      else (500, db)

/-! ## moderationController.ts -/

/-- Zod's cuid check (`z.string().cuid()`): regex `^c[^\s-]{8,}$`, case
insensitive, expressed over the character list. -/
def isCuid (s : String) : Bool :=
  match s.data with
  | [] => false
  | c :: rest =>
    (c == 'c' || c == 'C') && rest.length ≥ 8 &&
    rest.all (fun ch => !ch.isWhitespace && ch != '-')

/-- Raw body for the block toggle. -/
structure RawBlockBody where
  userId : Option String
  deriving Repr, DecidableEq

/-- `blockSchema` (moderationController.ts lines 5-7): `userId` must be a
cuid.  `none` models a thrown `ZodError`. -/
def blockSchemaParse (b : RawBlockBody) : Option Id :=
  match b.userId with
  | some s => if isCuid s then some s else none
  | none => none

/-- `toggleBlock` (moderationController.ts lines 18-52).  The catch block has
no `ZodError` branch, so a failed parse is answered with a 500; a valid body
targeting the caller is rejected with 400; otherwise the block edge is toggled
(`findFirst`, then `delete` or `create`). -/
def toggleBlock (db : DB) (blockerId : Id) (freshId : Id) (raw : RawBlockBody) :
    Nat × DB :=
  match blockSchemaParse raw with
  | none => (500, db)
  | some userId =>
    if userId == blockerId then (400, db)
    else
      match db.blockedUsers.find?
          (fun b => b.blockerId == blockerId && b.blockedId == userId) with
      | some existing =>
        (200, { db with blockedUsers :=
          db.blockedUsers.filter (fun b => b.id != existing.id) })
      | none =>
        (200, { db with blockedUsers :=
          ⟨freshId, blockerId, userId⟩ :: db.blockedUsers })

/-- The four reportable content kinds (`contentType` enum of `reportSchema`). -/
inductive ContentType
  | snippet | doc | bug | comment
  deriving Repr, DecidableEq

/-- Raw body for report creation. -/
structure RawReportBody where
  reportedUserId : Option String
  reason : Option ReportReason
  description : Option String
  contentType : Option ContentType
  contentId : Option String
  deriving Repr, DecidableEq

/-- Validated report body. -/
structure ReportBody where
  reportedUserId : Option Id
  reason : ReportReason
  description : Option String
  contentType : Option ContentType
  contentId : Option Id
  deriving Repr, DecidableEq

/-- `reportSchema` (moderationController.ts lines 9-15): optional cuid
`reportedUserId`, required `reason` enum, optional description ≤ 500 chars,
optional `contentType` enum and cuid `contentId`. -/
def reportSchemaParse (b : RawReportBody) : Option ReportBody :=
  match b.reason with
  | none => none
  | some reason =>
    if (match b.reportedUserId with | none => true | some s => isCuid s) &&
       (match b.description with | none => true | some d => d.length ≤ 500) &&
       (match b.contentId with | none => true | some s => isCuid s) then
      some ⟨b.reportedUserId, reason, b.description, b.contentType, b.contentId⟩
    else none

/-- `prisma[contentType].findUnique({ where: { id }, select: { authorId } })`:
the author of the addressed content row, when it exists. -/
def authorOf (db : DB) (ct : ContentType) (cid : Id) : Option Id :=
  match ct with
  | .snippet => (db.snippets.find? (fun x => x.id == cid)).map (fun x => x.authorId)
  | .doc => (db.docs.find? (fun x => x.id == cid)).map (fun x => x.authorId)
  | .bug => (db.bugs.find? (fun x => x.id == cid)).map (fun x => x.authorId)
  | .comment => (db.comments.find? (fun x => x.id == cid)).map (fun x => x.authorId)

/-- Build the content foreign-key fields `reportData[`${contentType}Id`]`. -/
def reportContentFields (ct : ContentType) (cid : Id) :
    Option Id × Option Id × Option Id × Option Id :=
  match ct with
  | .snippet => (some cid, none, none, none)
  | .doc => (none, some cid, none, none)
  | .bug => (none, none, some cid, none)
  | .comment => (none, none, none, some cid)

/-- `createReport` (moderationController.ts lines 117-182).  The catch block
has no `ZodError` branch, so a failed parse yields 500.  A caller-supplied
`reportedUserId` equal to the caller is rejected (400).  When both
`contentType` and `contentId` are supplied, the content author (when the row
exists) is rejected if it is the caller (400) and otherwise replaces the
reported id; a missing resolved target is a 400.  The insert keeps the
content id field even when the row does not exist, so that create would throw
on the foreign key (500, nothing written). -/
def createReport (db : DB) (reporterId : Id) (freshId : Id) (raw : RawReportBody) :
    Nat × DB :=
  match reportSchemaParse raw with
  | none => (500, db)
  | some v =>
    if v.reportedUserId == some reporterId then (400, db)
    else
      let step : Except Nat (Option Id) :=
        match v.contentType, v.contentId with
        | some ct, some cid =>
          if authorOf db ct cid == some reporterId then .error 400
          else
            .ok (match authorOf db ct cid with
                 | some a => some a
                 | none => v.reportedUserId)
        | _, _ => .ok v.reportedUserId
      let fields : Option Id × Option Id × Option Id × Option Id :=
        match v.contentType, v.contentId with
        | some ct, some cid => reportContentFields ct cid
        | _, _ => (none, none, none, none)
      match step with
      | .error s => (s, db)
      | .ok none => (400, db)
      | .ok (some reportedId) =>
        let r : Report :=
          ⟨freshId, reporterId, reportedId, v.reason, v.description,
           fields.1, fields.2.1, fields.2.2.1, fields.2.2.2⟩
        let fkOk :=
          (db.users.any (fun u => u.id == reporterId)) &&
          (db.users.any (fun u => u.id == reportedId)) &&
          (match fields.1 with
           | none => true
           | some x => db.snippets.any (fun y => y.id == x)) &&
          (match fields.2.1 with
           | none => true
           | some x => db.docs.any (fun y => y.id == x)) &&
          (match fields.2.2.1 with
           | none => true
           | some x => db.bugs.any (fun y => y.id == x)) &&
          (match fields.2.2.2 with
           | none => true
           | some x => db.comments.any (fun y => y.id == x))
        if fkOk then (201, { db with reports := r :: db.reports })
        else (500, db)

/-! ## Socket gateway (src/socket.ts)

One connection's state: the joined rooms, the per-event-name counters
(`eventCounts`), and the number of elapsed 60-second timer ticks
(`setInterval(() => eventCounts.clear(), 60000)`).  Timestamps are seconds
since the connection was established; the tick counter of an event at time
`t` is `t / 60`. -/

/-- The three client-initiated events the gateway listens for. -/
inductive SockEvent
  | joinUserRoom (userId : String)
  | joinContentRoom (contentId : String)
  | leaveContentRoom (contentId : String)
  deriving Repr, DecidableEq

/-- The event name keying `eventCounts`. -/
def eventName : SockEvent → String
  | .joinUserRoom _ => "join-user-room"
  | .joinContentRoom _ => "join-content-room"
  | .leaveContentRoom _ => "leave-content-room"

/-- The per-event cap passed to `checkRateLimit` at each call site. -/
def eventLimit : SockEvent → Nat
  | .joinUserRoom _ => 5
  | .joinContentRoom _ => 10
  | .leaveContentRoom _ => 10

/-- `eventCounts.get(name) || 0`. -/
def lookupCount (counts : List (String × Nat)) (n : String) : Nat :=
  match counts.find? (fun p => p.1 == n) with
  | some p => p.2
  | none => 0

/-- `eventCounts.set(name, v)`. -/
def setCount (counts : List (String × Nat)) (n : String) (v : Nat) :
    List (String × Nat) :=
  if counts.any (fun p => p.1 == n) then
    counts.map (fun p => if p.1 == n then (n, v) else p)
  else (n, v) :: counts

/-- `checkRateLimit` (socket.ts lines 41-53): at the cap, log and refuse
without touching the counter; below it, increment and allow. -/
def checkRateLimit (counts : List (String × Nat)) (n : String) (limit : Nat) :
    Bool × List (String × Nat) :=
  let c := lookupCount counts n
  if c ≥ limit then (false, counts)
  else (true, setCount counts n (c + 1))

/-- Room-id validation shared by the three handlers: non-empty and at most 50
characters. -/
def validRoomId (s : String) : Bool :=
  s != "" && s.length ≤ 50

/-- `socket.join(room)`: room membership is a set. -/
def joinRoom (rooms : List String) (r : String) : List String :=
  if rooms.contains r then rooms else r :: rooms

/-- Per-connection state. -/
structure ConnState where
  rooms : List String
  counts : List (String × Nat)
  epoch : Nat
  deriving Repr, DecidableEq

/-- Connection start: no rooms, empty counter map, no ticks elapsed. -/
def connStart : ConnState := ⟨[], [], 0⟩

/-- The room-membership effect of one handler body: validate the id
(non-empty, at most 50 chars; an invalid id is dropped) and then
`socket.join` / `socket.leave`. -/
def roomsAfter (rooms : List String) (e : SockEvent) : List String :=
  match e with
  | .joinUserRoom uid => if validRoomId uid then joinRoom rooms uid else rooms
  | .joinContentRoom cid => if validRoomId cid then joinRoom rooms cid else rooms
  | .leaveContentRoom cid =>
    if validRoomId cid then rooms.filter (fun r => r != cid) else rooms

/-- Handle one inbound event at time `t` (seconds): first any elapsed
60-second tick clears `eventCounts`; then `checkRateLimit` (a `false` answer
drops the event, leaving the counter untouched); then the handler body
(`roomsAfter`).  The returned `Bool` reports whether the event survived the
rate limit. -/
def stepTimed (st : ConnState) (t : Nat) (e : SockEvent) : ConnState × Bool :=
  let st1 := if st.epoch < t / 60 then { st with counts := [], epoch := t / 60 } else st
  let rl := checkRateLimit st1.counts (eventName e) (eventLimit e)
  if rl.1 then
    ({ st1 with counts := rl.2, rooms := roomsAfter st1.rooms e }, true)
  else (st1, false)

/-- Number of events of a timed trace that survive the rate limit, carry the
event name `n`, and have a timestamp in the half-open window `[lo, hi)`. -/
def processedIn (st : ConnState) (trace : List (Nat × SockEvent))
    (n : String) (lo hi : Nat) : Nat :=
  match trace with
  | [] => 0
  | (t, e) :: rest =>
    (if (stepTimed st t e).2 && eventName e == n && decide (lo ≤ t) && decide (t < hi)
     then 1 else 0) + processedIn (stepTimed st t e).1 rest n lo hi

/-- Number of events of a timed trace that survive the rate limit, carry the
event name `n`, and fall in tick window `k` (i.e. `t / 60 = k`). -/
def processedInEpoch (st : ConnState) (trace : List (Nat × SockEvent))
    (n : String) (k : Nat) : Nat :=
  match trace with
  | [] => 0
  | (t, e) :: rest =>
    (if (stepTimed st t e).2 && eventName e == n && t / 60 == k then 1 else 0) +
      processedInEpoch (stepTimed st t e).1 rest n k

/-- The cap `checkRateLimit` is called with, per event name: 5 for
`join-user-room`, 10 for the two content-room events (10 is also the default). -/
def limitFor (n : String) : Nat :=
  if n == "join-user-room" then 5 else 10

/-! ## GitHub OAuth (config/passport.ts and the auth controller) -/

/-- The validated GitHub profile fields the verify callback consumes. -/
structure GithubProfile where
  id : Id
  username : String
  email : Option String
  bio : Option String
  deriving Repr, DecidableEq

/-- The passport verify callback (passport.ts lines 39-99): look up the local
user by `githubId`; when absent, create one from the profile data (`bio` is
`githubProfile.bio ?? ''`); when present, update it in place, bumping
prisma's `@updatedAt`.  `none` models `done(error)` (missing email), after
which no redirect happens.  The `Bool` records whether the row was freshly
created. -/
def upsertGithubUser (db : DB) (now : Nat) (freshId : Id) (p : GithubProfile) :
    Option (DB × User × Bool) :=
  let email := p.email.getD ""
  if email == "" then none
  else
    match db.users.find? (fun u => u.githubId == p.id) with
    | none =>
      let u : User :=
        ⟨freshId, p.id, p.username, email, some (p.bio.getD ""), now, now⟩
      some ({ db with users := u :: db.users }, u, true)
    | some u0 =>
      let u : User :=
        { u0 with username := p.username, email := email,
                  bio := some (p.bio.getD ""), updatedAt := now }
      some ({ db with users := db.users.map (fun v => if v.id == u0.id then u else v) },
            u, false)

/-- The two redirect destinations of `githubCallback`. -/
inductive Redirect
  | setup | home
  deriving Repr, DecidableEq

/-- JavaScript `String.prototype.trim`: strip whitespace from both ends,
expressed over the character list. -/
def jsTrim (s : String) : String :=
  ⟨((s.data.dropWhile Char.isWhitespace).reverse.dropWhile Char.isWhitespace).reverse⟩

/-- JavaScript `===` between `user.createdAt` and `user.updatedAt`: the user
reaching `githubCallback` is the Prisma row, whose two timestamp columns are
materialised as two distinct `Date` objects, and strict equality on two
distinct objects is reference equality — false whatever the timestamp values
are. -/
def dateStrictEq (_createdAt _updatedAt : Nat) : Bool := false

/-- The new-user heuristic of `githubCallback` (auth controller lines 8-21):
`!user.bio || user.bio.trim() === '' || user.createdAt === user.updatedAt`.
The last disjunct compares two `Date` objects with `===` (see
`dateStrictEq`), so only the bio tests can fire. -/
def isNewUserCheck (u : User) : Bool :=
  (u.bio.getD "") == "" || jsTrim (u.bio.getD "") == "" ||
    dateStrictEq u.createdAt u.updatedAt

/-- `githubCallback`: redirect to `/profile/setup` when the heuristic fires,
else to `/home`. -/
def githubCallback (u : User) : Redirect :=
  if isNewUserCheck u then .setup else .home

/-! ## Derived predicates -/

/-- No like, comment or bookmark row of the store references the given doc. -/
def noDocDeps (db : DB) (docId : Id) : Bool :=
  db.likes.all (fun l => l.docId != some docId) &&
  db.comments.all (fun c => c.docId != some docId) &&
  db.bookmarks.all (fun b => b.docId != some docId)

/-! ## Concrete stores and requests used to instantiate the theorems -/

/-- A user without a bio. -/
def fxUser1 : User := ⟨"u1", "g1", "alice", "a@x.com", none, 0, 0⟩

/-- A user with a bio. -/
def fxUser2 : User := ⟨"u2", "g2", "bob", "b@x.com", some "hi", 0, 0⟩

/-- A public doc authored by `u1`. -/
def fxDoc : Doc := ⟨"d1", "u1", "T", "C", true, 0, 0⟩

/-- A private doc authored by `u1`. -/
def fxDocPriv : Doc := ⟨"d2", "u1", "T2", "C2", false, 0, 0⟩

/-- Store with two users, a public and a private doc, and one like, comment
and bookmark referencing the public doc. -/
def fxDB : DB :=
  ⟨[fxUser1, fxUser2], [], [fxDoc, fxDocPriv], [],
   [⟨"c1", "u2", "nice", none, some "d1", none, none⟩],
   [⟨"l1", "u2", none, some "d1", none⟩],
   [⟨"bm1", "u2", none, some "d1", none⟩],
   [], [], [], []⟩

/-- A bug that expires at time 10, authored by `u1`. -/
def fxBug : Bug := ⟨"b1", "u1", 10⟩

/-- Store holding only the two users and the expiring bug. -/
def fxBugDB : DB := ⟨[fxUser1, fxUser2], [], [], [fxBug], [], [], [], [], [], [], []⟩

/-- Comment body that sets two target keys, one of them the empty string. -/
def fxRawTwoTargets : RawCommentBody := ⟨some "hi", some "", some "d1", none, none⟩

/-- Comment body that sets no target key. -/
def fxRawNoTarget : RawCommentBody := ⟨some "hi", none, none, none, none⟩

/-- Comment body targeting the bug `b1`. -/
def fxRawBug : RawCommentBody := ⟨some "hi", none, none, some "b1", none⟩

/-- Comment body targeting a bug id that exists in no store. -/
def fxRawBugMissing : RawCommentBody := ⟨some "hi", none, none, some "zz", none⟩

/-- Valid doc update body. -/
def fxRawDocBody : RawDocBody := ⟨some "T3", some "C3", some true⟩

/-- A cuid-shaped caller id. -/
def fxMe : Id := "cSELF123456"

/-- cuid-shaped reporter, author and doc ids for the report fixtures. -/
def fxReporter : Id := "cREPORTER11"

/-- See `fxReporter`. -/
def fxAuthor : Id := "cAUTHOR2222"

/-- See `fxReporter`. -/
def fxDocId : Id := "cDOCID99999"

/-- Store for the report fixtures: reporter and author users plus one public
doc authored by `fxAuthor`. -/
def fxReportDB : DB :=
  ⟨[⟨fxReporter, "g1", "alice", "a@x", none, 0, 0⟩,
    ⟨fxAuthor, "g2", "bob", "b@x", none, 0, 0⟩],
   [], [⟨fxDocId, fxAuthor, "T", "C", true, 0, 0⟩], [], [], [], [], [], [], [], []⟩

/-- Report body addressing the doc `fxDocId` without naming a reported user. -/
def fxRawReportContent : RawReportBody :=
  ⟨none, some .SPAM, none, some .doc, some fxDocId⟩

/-- Ten `join-user-room` events: five just before the 60-second tick and five
just after it. -/
def fxTrace : List (Nat × SockEvent) :=
  [(59, .joinUserRoom "u"), (59, .joinUserRoom "u"), (59, .joinUserRoom "u"),
   (59, .joinUserRoom "u"), (59, .joinUserRoom "u"), (61, .joinUserRoom "u"),
   (61, .joinUserRoom "u"), (61, .joinUserRoom "u"), (61, .joinUserRoom "u"),
   (61, .joinUserRoom "u")]

/-- Store holding one user whose GitHub id is `g9`, with a non-empty bio and
distinguishable timestamps. -/
def fxGitDB : DB :=
  ⟨[⟨"u9", "g9", "old", "e@x", some "old bio", 0, 0⟩], [], [], [], [], [], [], [], [], [], []⟩

/-- GitHub profile for `g9` whose bio is null. -/
def fxGitProfile : GithubProfile := ⟨"g9", "old", some "e@x", none⟩

/-- GitHub profile for `g9` carrying a non-empty bio. -/
def fxGitProfileBio : GithubProfile := ⟨"g9", "old", some "e@x", some "hello"⟩

/-- The user the verify callback creates from `fxGitProfileBio` at time 7. -/
def fxFreshUserBio : User := ⟨"nu", "g9", "old", "e@x", some "hello", 7, 7⟩

/-- Empty store (no users). -/
def fxEmptyDB : DB := ⟨[], [], [], [], [], [], [], [], [], [], []⟩

/-- The user the verify callback creates from `fxGitProfile` at time 7. -/
def fxFreshUser : User := ⟨"nu", "g9", "old", "e@x", some "", 7, 7⟩

/-- Block-toggle body naming the caller (`fxMe`) itself. -/
def fxRawBlockSelf : RawBlockBody := ⟨some fxMe⟩

/-- Report body naming the caller (`fxMe`) itself as reported user. -/
def fxRawReportSelf : RawReportBody := ⟨some fxMe, some .SPAM, none, none, none⟩

/-! ## Helper lemmas -/

/-- Filtering with a predicate leaves only elements satisfying it. -/
theorem all_filter_self {α : Type} (l : List α) (p : α → Bool) :
    (l.filter p).all p = true := by
  rw [List.all_eq_true]
  intro x hx
  exact (List.mem_filter.mp hx).2

/-- The `deleteDoc` transaction evaluated: it commits exactly when the doc row
exists, producing the store with every dependent row and the doc removed. -/
theorem runTransaction_deleteDocOps (db : DB) (d : Id) :
    runTransaction db
      [.deleteLikesByDoc d, .deleteCommentsByDoc d,
       .deleteBookmarksByDoc d, .deleteDocById d] =
    (if (findDoc db d).isSome then
      some { db with
        likes := db.likes.filter (fun l => l.docId != some d),
        comments := db.comments.filter (fun c => c.docId != some d),
        bookmarks := db.bookmarks.filter (fun b => b.docId != some d),
        docs := db.docs.filter (fun x => x.id != d) }
    else none) := by
  simp only [runTransaction, List.foldlM, applyTxOp, findDoc, Option.bind_eq_bind,
    Option.some_bind]
  split <;> rfl

/-- The fully cleaned store satisfies `noDocDeps`. -/
theorem noDocDeps_cleaned (db : DB) (d : Id) :
    noDocDeps { db with
      likes := db.likes.filter (fun l => l.docId != some d),
      comments := db.comments.filter (fun c => c.docId != some d),
      bookmarks := db.bookmarks.filter (fun b => b.docId != some d),
      docs := db.docs.filter (fun x => x.id != d) } d = true := by
  simp [noDocDeps, all_filter_self]

/-! ## C1 -/

/-- C1: for every doc whose delete request succeeds (the caller is the owner
and the doc exists), the delete and the removal of all dependent like, comment
and bookmark rows run as one all-or-nothing transaction, and afterwards no
like, comment or bookmark row with that `docId` (and no such doc row) remains;
moreover every `deleteDoc` call either leaves the store untouched or ends in
the fully cleaned state — no partial outcome exists. -/
theorem deleteDoc_cascades_atomically (db : DB) (userId docId : Id) (doc : Doc)
    (hfind : findDoc db docId = some doc) (hown : doc.authorId = userId) :
    ((deleteDoc db userId docId).1 = 200 ∧
     noDocDeps (deleteDoc db userId docId).2 docId = true ∧
     findDoc (deleteDoc db userId docId).2 docId = none) ∧
    (∀ (db' : DB) (u d : Id),
      (deleteDoc db' u d).2 = db' ∨
      ((deleteDoc db' u d).1 = 200 ∧ noDocDeps (deleteDoc db' u d).2 d = true)) := by
  have hrun := runTransaction_deleteDocOps db docId
  rw [hfind] at hrun
  simp only [Option.isSome_some, if_true] at hrun
  constructor
  · simp only [deleteDoc, hfind, hown, bne_self_eq_false, Bool.false_eq_true,
      if_false, hrun]
    refine ⟨trivial, noDocDeps_cleaned db docId, ?_⟩
    simp only [findDoc, List.find?_eq_none, List.mem_filter]
    intro x hx
    simpa using hx.2
  · intro db' u d
    cases hf : findDoc db' d with
    | none => simp only [deleteDoc, hf]; exact Or.inl trivial
    | some doc' =>
      by_cases ho : doc'.authorId = u
      · have hrun' := runTransaction_deleteDocOps db' d
        rw [hf] at hrun'
        simp only [Option.isSome_some, if_true] at hrun'
        simp only [deleteDoc, hf, ho, bne_self_eq_false, Bool.false_eq_true,
          if_false, hrun']
        exact Or.inr ⟨trivial, noDocDeps_cleaned db' d⟩
      · have hb : (doc'.authorId != u) = true := bne_iff_ne.mpr ho
        simp only [deleteDoc, hf, hb, if_true]
        exact Or.inl trivial

/-- Witness for C1: deleting the public doc of the concrete store as its owner
succeeds and leaves no dependent rows. -/
theorem deleteDoc_cascades_atomically_witness :
    (deleteDoc fxDB "u1" "d1").1 = 200 ∧
    noDocDeps (deleteDoc fxDB "u1" "d1").2 "d1" = true ∧
    findDoc (deleteDoc fxDB "u1" "d1").2 "d1" = none :=
  (deleteDoc_cascades_atomically fxDB "u1" "d1" fxDoc (by decide) (by decide)).1

/-! ## C2 -/

/-- A filter returning a singleton pins down `find?`. -/
theorem find?_of_filter_singleton {α : Type} (p : α → Bool) (e : α) :
    ∀ l : List α, l.filter p = [e] → l.find? p = some e := by
  intro l
  induction l with
  | nil => intro h; simp at h
  | cons a rest ih =>
    intro h
    by_cases hp : p a = true
    · rw [List.filter_cons_of_pos hp] at h
      injection h with h1 _
      rw [List.find?_cons_of_pos _ hp, h1]
    · rw [List.filter_cons_of_neg (by simpa using hp)] at h
      rw [List.find?_cons_of_neg _ hp]
      exact ih h

/-- `toggleFollow` never touches the user table. -/
theorem toggleFollow_users (db : DB) (f g nid : Id) :
    (toggleFollow db f g nid).2.users = db.users := by
  rw [toggleFollow]
  split
  · rfl
  · split
    · rfl
    · split <;> rfl

/-- Creating call of the toggle: no edge for the pair exists, so one is
inserted together with a FOLLOW notification. -/
theorem toggleFollow_create (db : DB) (f g nid : Id)
    (hne : f ≠ g) (hg : (findUser db g).isSome = true)
    (hnone : pairEdges db f g = []) :
    toggleFollow db f g nid =
      (200, { db with follows := ⟨nid, f, g⟩ :: db.follows,
                      notifications := ⟨.FOLLOW, g, f, none⟩ :: db.notifications }) := by
  have hb : (f == g) = false := beq_eq_false_iff_ne.mpr hne
  have hff : findFollow db f g = none := by
    rw [findFollow, List.find?_eq_none]
    intro x hx
    exact (List.filter_eq_nil_iff.mp hnone) x hx
  cases hgu : findUser db g with
  | none => rw [hgu] at hg; simp at hg
  | some u => simp [toggleFollow, hb, hgu, hff]

/-- Deleting call of the toggle: the unique pair edge is removed by its id and
no notification is written; afterwards the pair has no edge. -/
theorem toggleFollow_delete (db : DB) (f g nid : Id) (e : Follow)
    (hne : f ≠ g) (hg : (findUser db g).isSome = true)
    (hone : pairEdges db f g = [e]) :
    toggleFollow db f g nid =
      (200, { db with follows := db.follows.filter (fun x => x.id != e.id) }) ∧
    pairEdges { db with follows := db.follows.filter (fun x => x.id != e.id) } f g
      = [] := by
  have hb : (f == g) = false := beq_eq_false_iff_ne.mpr hne
  have hff : findFollow db f g = some e :=
    find?_of_filter_singleton _ e db.follows hone
  constructor
  · cases hgu : findUser db g with
    | none => rw [hgu] at hg; simp at hg
    | some u => simp [toggleFollow, hb, hgu, hff]
  · rw [pairEdges]
    rw [List.filter_eq_nil_iff]
    intro x hx
    have hx' := List.mem_filter.mp hx
    intro hpx
    have hxe : x ∈ db.follows.filter
        (fun f' => f'.followerId == f && f'.followingId == g) :=
      List.mem_filter.mpr ⟨hx'.1, hpx⟩
    rw [pairEdges] at hone
    rw [hone] at hxe
    have : x = e := by simpa using hxe
    subst this
    simpa using hx'.2

/-- Parity of the iterated toggle: starting from an edge-free pair, after `n`
calls the pair carries `n % 2` edges; the target user stays present. -/
theorem iterToggle_parity (db : DB) (f g : Id) (ids : Nat → Id)
    (hne : f ≠ g) (hg : (findUser db g).isSome = true)
    (hstart : pairEdges db f g = []) :
    ∀ n, (pairEdges (iterToggle f g ids n db) f g).length = n % 2 ∧
         (findUser (iterToggle f g ids n db) g).isSome = true := by
  intro n
  induction n with
  | zero => exact ⟨by simp [iterToggle, hstart], by simpa [iterToggle] using hg⟩
  | succ n ih =>
    obtain ⟨hlen, hgn⟩ := ih
    rcases Nat.mod_two_eq_zero_or_one n with hpar | hpar
    · rw [hpar] at hlen
      have hnil : pairEdges (iterToggle f g ids n db) f g = [] :=
        List.length_eq_zero.mp hlen
      have hstep := toggleFollow_create (iterToggle f g ids n db) f g (ids n) hne hgn hnil
      constructor
      · show (pairEdges (toggleFollow (iterToggle f g ids n db) f g (ids n)).2 f g).length
            = (n + 1) % 2
        rw [hstep]
        have : pairEdges { iterToggle f g ids n db with
            follows := ⟨ids n, f, g⟩ :: (iterToggle f g ids n db).follows,
            notifications := ⟨.FOLLOW, g, f, none⟩ ::
              (iterToggle f g ids n db).notifications } f g
            = ⟨ids n, f, g⟩ :: pairEdges (iterToggle f g ids n db) f g := by
          rw [pairEdges, pairEdges]
          rw [List.filter_cons_of_pos (by simp)]
        rw [this, hnil]
        simp only [List.length_cons, List.length_nil]
        omega
      · show (findUser (toggleFollow (iterToggle f g ids n db) f g (ids n)).2 g).isSome
            = true
        rw [findUser, toggleFollow_users, ← findUser]
        exact hgn
    · rw [hpar] at hlen
      obtain ⟨e, he⟩ := List.length_eq_one.mp hlen
      have hstep := toggleFollow_delete (iterToggle f g ids n db) f g (ids n) e hne hgn he
      constructor
      · show (pairEdges (toggleFollow (iterToggle f g ids n db) f g (ids n)).2 f g).length
            = (n + 1) % 2
        rw [hstep.1]
        rw [hstep.2]
        simp only [List.length_nil]
        omega
      · show (findUser (toggleFollow (iterToggle f g ids n db) f g (ids n)).2 g).isSome
            = true
        rw [findUser, toggleFollow_users, ← findUser]
        exact hgn

/-- Per-call notification behavior of the toggle. -/
theorem toggleFollow_notifications (db : DB) (f g nid : Id)
    (hne : f ≠ g) (hg : (findUser db g).isSome = true) :
    ((findFollow db f g).isSome = true →
      (toggleFollow db f g nid).2.notifications = db.notifications) ∧
    (findFollow db f g = none →
      (toggleFollow db f g nid).2.notifications =
        ⟨.FOLLOW, g, f, none⟩ :: db.notifications) := by
  have hb : (f == g) = false := beq_eq_false_iff_ne.mpr hne
  cases hgu : findUser db g with
  | none => rw [hgu] at hg; simp at hg
  | some u =>
    constructor
    · intro hsome
      cases hff : findFollow db f g with
      | none => rw [hff] at hsome; simp at hsome
      | some e => simp [toggleFollow, hb, hgu, hff]
    · intro hnone
      simp [toggleFollow, hb, hgu, hnone]

/-- C2: for an ordered pair (follower, following) with distinct ids and an
existing target, starting from no edge, after `n` toggle calls the pair edge
is present exactly when `n` is odd (the pair carries `n % 2` edges); and on
any single call a FOLLOW notification is written exactly when the call creates
the edge, never when it deletes it. -/
theorem toggleFollow_parity_and_notification (db : DB) (f g : Id) (ids : Nat → Id)
    (hne : f ≠ g) (hg : (findUser db g).isSome = true)
    (hstart : pairEdges db f g = []) :
    (∀ n, (pairEdges (iterToggle f g ids n db) f g).length = n % 2) ∧
    (∀ (db₁ : DB) (nid : Id), (findUser db₁ g).isSome = true →
      ((findFollow db₁ f g).isSome = true →
        (toggleFollow db₁ f g nid).2.notifications = db₁.notifications) ∧
      (findFollow db₁ f g = none →
        (toggleFollow db₁ f g nid).2.notifications =
          ⟨.FOLLOW, g, f, none⟩ :: db₁.notifications)) :=
  ⟨fun n => (iterToggle_parity db f g ids hne hg hstart n).1,
   fun db₁ nid hg₁ => toggleFollow_notifications db₁ f g nid hne hg₁⟩

/-- Witness for C2: three toggles on the concrete store leave exactly one
edge for the pair. -/
theorem toggleFollow_parity_and_notification_witness :
    (pairEdges (iterToggle "u1" "u2" (fun _ => "fid") 3 fxDB) "u1" "u2").length
      = 3 % 2 :=
  (toggleFollow_parity_and_notification fxDB "u1" "u2" (fun _ => "fid")
    (by decide) (by decide) (by decide)).1 3

/-! ## C3 -/

/-- C3: for every doc and every caller who is not its author, reading the doc
while private is answered 403, and updating or deleting it is answered 403
whatever its visibility, with the store unchanged in all three cases. -/
theorem nonOwner_gets_403 (db : DB) (now : Nat) (caller id : Id) (doc : Doc)
    (raw : RawDocBody) (body : DocBody)
    (hfind : findDoc db id = some doc) (hne : caller ≠ doc.authorId)
    (hparse : docSchemaParse raw = some body) :
    (doc.isPublic = false → getDocById db (some caller) id = (403, db)) ∧
    updateDoc db now caller id raw = some (403, db) ∧
    deleteDoc db caller id = (403, db) := by
  have hb : (doc.authorId != caller) = true := bne_iff_ne.mpr (Ne.symm hne)
  refine ⟨?_, ?_, ?_⟩
  · intro hpriv
    have hopt : (some doc.authorId != some caller) = true := by
      rw [bne_iff_ne]
      simp only [ne_eq, Option.some.injEq]
      exact fun h => hne h.symm
    simp [getDocById, hfind, hpriv, hopt]
  · simp [updateDoc, hparse, hfind, hb]
  · simp [deleteDoc, hfind, hb]

/-- Witness for C3: `u2` can neither read the private doc `d2` nor update or
delete it, and the concrete store is untouched. -/
theorem nonOwner_gets_403_witness :
    getDocById fxDB (some "u2") "d2" = (403, fxDB) ∧
    updateDoc fxDB 9 "u2" "d2" fxRawDocBody = some (403, fxDB) ∧
    deleteDoc fxDB "u2" "d2" = (403, fxDB) := by
  have h := nonOwner_gets_403 fxDB 9 "u2" "d2" fxDocPriv fxRawDocBody
    ⟨"T3", "C3", true⟩ (by decide) (by decide) (by decide)
  exact ⟨h.1 (by decide), h.2.1, h.2.2⟩

/-! ## C4 -/

/-- C4 counterexample: a body that sets two of the three target ids (one of
them the empty string) passes `commentSchema` validation — `filter(Boolean)`
drops the empty string — and the request is not answered with 400, refuting
the claim that every body setting more than one target id fails validation
with a 400. -/
theorem comment_two_targets_counterexample :
    fxRawTwoTargets.snippetId.isSome = true ∧
    fxRawTwoTargets.docId.isSome = true ∧
    (commentSchemaParse fxRawTwoTargets).isSome = true ∧
    (createComment fxDB 0 "u2" "c9" fxRawTwoTargets).1 ≠ 400 := by decide

/-- C4 (amended): counting only non-empty (JS-truthy) target ids — which is
what `filter(Boolean)` does — a body with zero or more than one of them fails
validation with a 400 and no comment row is created. -/
theorem comment_target_validation (db : DB) (now : Nat) (senderId freshId : Id)
    (raw : RawCommentBody)
    (h : ((if truthy raw.snippetId then 1 else 0) +
          (if truthy raw.docId then 1 else 0) +
          (if truthy raw.bugId then 1 else 0)) ≠ 1) :
    createComment db now senderId freshId raw = (400, db) := by
  obtain ⟨rc, rs, rd, rb, rp⟩ := raw
  have hp : commentSchemaParse ⟨rc, rs, rd, rb, rp⟩ = none := by
    cases rc with
    | none => rfl
    | some c =>
      have hb : (((if truthy rs then 1 else 0) +
          (if truthy rd then 1 else 0) +
          (if truthy rb then 1 else 0)) == 1) = false := by
        rw [beq_eq_false_iff_ne]
        simpa using h
      simp [commentSchemaParse, hb]
  simp [createComment, hp]

/-- Witness for C4's amended claim: a body with no target id at all is
answered 400 and creates nothing. -/
theorem comment_target_validation_witness :
    createComment fxDB 0 "u2" "c9" fxRawNoTarget = (400, fxDB) :=
  comment_target_validation fxDB 0 "u2" "c9" fxRawNoTarget (by decide)

/-! ## C5 -/

/-- C5: a comment aimed at a bug is answered 404 when the bug row is absent
and 410 when the bug exists but its expiry timestamp is strictly earlier than
the current time; the two outcomes are distinct and neither creates a
comment row (the store is returned unchanged). -/
theorem bug_comment_gone_vs_missing (db : DB) (now : Nat) (senderId freshId : Id)
    (raw : RawCommentBody) (v : CommentBody)
    (hparse : commentSchemaParse raw = some v)
    (hsnip : truthy v.snippetId = false) (hdoc : truthy v.docId = false)
    (hbug : truthy v.bugId = true) :
    (db.bugs.find? (fun x => some x.id == v.bugId) = none →
      createComment db now senderId freshId raw = (404, db)) ∧
    (∀ bug, db.bugs.find? (fun x => some x.id == v.bugId) = some bug →
      bug.expiresAt < now →
      createComment db now senderId freshId raw = (410, db)) ∧
    (410 : Nat) ≠ 404 := by
  refine ⟨?_, ?_, by decide⟩
  · intro hnone
    simp [createComment, hparse, resolveTarget, hsnip, hdoc, hbug, hnone,
      Bind.bind, Except.bind]
  · intro bug hsome hexp
    simp [createComment, hparse, resolveTarget, hsnip, hdoc, hbug, hsome, hexp,
      Bind.bind, Except.bind]

/-- Witness for C5: on the concrete store the expired bug yields 410 and the
missing bug id yields 404. -/
theorem bug_comment_gone_vs_missing_witness :
    createComment fxBugDB 50 "u2" "c9" fxRawBug = (410, fxBugDB) ∧
    createComment fxBugDB 50 "u2" "c9" fxRawBugMissing = (404, fxBugDB) := by
  constructor
  · exact (bug_comment_gone_vs_missing fxBugDB 50 "u2" "c9" fxRawBug
      ⟨"hi", none, none, some "b1", none⟩ (by decide) (by decide) (by decide)
      (by decide)).2.1 fxBug (by decide) (by decide)
  · exact (bug_comment_gone_vs_missing fxBugDB 50 "u2" "c9" fxRawBugMissing
      ⟨"hi", none, none, some "zz", none⟩ (by decide) (by decide) (by decide)
      (by decide)).1 (by decide)

/-! ## C6 -/

/-- C6: a follow toggle aimed at the caller's own id, a block toggle whose
validated body names the caller, and a report whose reportedUserId equals the
caller are all rejected with a 400 and leave the store unchanged. -/
theorem self_actions_rejected (db : DB) (me freshId : Id)
    (rawB : RawBlockBody) (rawR : RawReportBody) (vR : ReportBody)
    (hB : blockSchemaParse rawB = some me)
    (hR : reportSchemaParse rawR = some vR)
    (hRself : vR.reportedUserId = some me) :
    toggleFollow db me me freshId = (400, db) ∧
    toggleBlock db me freshId rawB = (400, db) ∧
    createReport db me freshId rawR = (400, db) := by
  refine ⟨?_, ?_, ?_⟩
  · simp [toggleFollow]
  · simp [toggleBlock, hB]
  · simp [createReport, hR, hRself]

/-- Witness for C6 at the concrete store and the cuid-shaped caller id. -/
theorem self_actions_rejected_witness :
    toggleFollow fxDB fxMe fxMe "f1" = (400, fxDB) ∧
    toggleBlock fxDB fxMe "x1" fxRawBlockSelf = (400, fxDB) ∧
    createReport fxDB fxMe "r1" fxRawReportSelf = (400, fxDB) :=
  self_actions_rejected fxDB fxMe "f1" fxRawBlockSelf fxRawReportSelf
    ⟨some fxMe, .SPAM, none, none, none⟩ (by decide) (by decide) (by decide)

/-! ## C7 -/

/-- C7 (code bug): in the moderation controller a schema-validation failure
falls through to the catch-all and is answered with a 500, not a 4xx: a block
toggle with a missing `userId` and a report with a non-cuid `reportedUserId`
both yield 500 with the store unchanged, while the comment controller answers
the analogous validation failure with a 400 as the spec prescribes. -/
theorem moderation_validation_yields_500 :
    toggleBlock fxDB "u1" "x1" ⟨none⟩ = (500, fxDB) ∧
    createReport fxDB "u1" "r1" ⟨some "bad", some .SPAM, none, none, none⟩
      = (500, fxDB) ∧
    (createComment fxDB 0 "u2" "c9" fxRawNoTarget).1 = 400 := by decide

/-! ## C8 -/

/-- The cap handed to `checkRateLimit` depends only on the event name. -/
theorem eventLimit_eq_limitFor (e : SockEvent) :
    eventLimit e = limitFor (eventName e) := by
  cases e <;> rfl

/-- Every cap is positive. -/
theorem limitFor_pos (n : String) : 0 < limitFor n := by
  rw [limitFor]; split <;> omega

/-- `Map.set` on the addressed key, as seen by `Map.get`. -/
theorem find?_setCount_self :
    ∀ (counts : List (String × Nat)) (n : String) (v : Nat),
      counts.any (fun p => p.1 == n) = true →
      (counts.map (fun p => if p.1 == n then (n, v) else p)).find?
        (fun p => p.1 == n) = some (n, v)
  | [], n, v, h => by simp at h
  | ⟨pn, pv⟩ :: rest, n, v, h => by
    by_cases hp : pn = n
    · subst hp
      simp [List.find?]
    · have hp' : (pn == n) = false := by simpa using hp
      have h' : rest.any (fun p => p.1 == n) = true := by
        simpa [hp'] using h
      simp only [List.map_cons, hp']
      rw [if_neg (by simp), List.find?_cons_of_neg _ (by simp [hp'])]
      exact find?_setCount_self rest n v h'

/-- `Map.set` leaves other keys alone, as seen by `find?`. -/
theorem find?_setCount_ne :
    ∀ (counts : List (String × Nat)) (n m : String) (v : Nat),
      (m == n) = false →
      (counts.map (fun p => if p.1 == n then (n, v) else p)).find?
        (fun p => p.1 == m) = counts.find? (fun p => p.1 == m)
  | [], _, _, _, _ => rfl
  | ⟨pn, pv⟩ :: rest, n, m, v, h => by
    by_cases hp : pn = n
    · subst hp
      have h1 : (pn == m) = false := by
        rw [beq_eq_false_iff_ne] at h ⊢
        exact fun hh => h hh.symm
      simp only [List.map_cons, beq_self_eq_true, if_true]
      rw [List.find?_cons_of_neg _ (by simp [h1]), List.find?_cons_of_neg _ (by simp [h1])]
      exact find?_setCount_ne rest pn m v h
    · have hp' : (pn == n) = false := by simpa using hp
      simp only [List.map_cons, hp']
      rw [if_neg (by simp)]
      by_cases hm : (pn == m) = true
      · simp only [List.find?, hm]
      · have hm' : (pn == m) = false := by rwa [Bool.not_eq_true] at hm
        simp only [List.find?, hm']
        exact find?_setCount_ne rest n m v h

/-- `lookupCount` after `setCount` on the same key. -/
theorem lookupCount_setCount_self (counts : List (String × Nat)) (n : String)
    (v : Nat) : lookupCount (setCount counts n v) n = v := by
  rw [setCount]
  split
  case isTrue h =>
    simp only [lookupCount]
    rw [find?_setCount_self counts n v h]
  case isFalse h =>
    simp only [lookupCount]
    rw [List.find?_cons_of_pos _ (by simp)]

/-- `lookupCount` after `setCount` on a different key. -/
theorem lookupCount_setCount_ne (counts : List (String × Nat)) (n m : String)
    (v : Nat) (h : (m == n) = false) :
    lookupCount (setCount counts n v) m = lookupCount counts m := by
  have hnm : ((n : String) == m) = false := by
    rw [beq_eq_false_iff_ne] at h ⊢
    exact fun hh => h hh.symm
  rw [setCount]
  split
  case isTrue hh =>
    simp only [lookupCount]
    rw [find?_setCount_ne counts n m v h]
  case isFalse hh =>
    simp only [lookupCount]
    rw [List.find?_cons_of_neg _ (by simp [hnm])]

/-- `checkRateLimit` below the cap: allow and increment. -/
theorem checkRateLimit_of_lt (counts : List (String × Nat)) (n : String)
    (limit : Nat) (h : lookupCount counts n < limit) :
    checkRateLimit counts n limit =
      (true, setCount counts n (lookupCount counts n + 1)) := by
  simp only [checkRateLimit]
  rw [if_neg (by omega)]

/-- `checkRateLimit` at the cap: refuse, counter untouched. -/
theorem checkRateLimit_of_ge (counts : List (String × Nat)) (n : String)
    (limit : Nat) (h : lookupCount counts n ≥ limit) :
    checkRateLimit counts n limit = (false, counts) := by
  simp only [checkRateLimit]
  rw [if_pos (by omega)]

/-- One step without an elapsed tick, event dropped by the limiter. -/
theorem stepTimed_noreset_dropped (st : ConnState) (t : Nat) (e : SockEvent)
    (hep : ¬ st.epoch < t / 60)
    (hge : lookupCount st.counts (eventName e) ≥ eventLimit e) :
    stepTimed st t e = (st, false) := by
  simp only [stepTimed, if_neg hep, checkRateLimit_of_ge _ _ _ hge]
  rfl

/-- One step without an elapsed tick, event allowed by the limiter. -/
theorem stepTimed_noreset_ok (st : ConnState) (t : Nat) (e : SockEvent)
    (hep : ¬ st.epoch < t / 60)
    (hlt : lookupCount st.counts (eventName e) < eventLimit e) :
    (stepTimed st t e).2 = true ∧
    (stepTimed st t e).1.counts =
      setCount st.counts (eventName e) (lookupCount st.counts (eventName e) + 1) ∧
    (stepTimed st t e).1.epoch = st.epoch := by
  simp only [stepTimed, if_neg hep, checkRateLimit_of_lt _ _ _ hlt]
  exact ⟨rfl, rfl, rfl⟩

/-- One step with an elapsed tick: the counter map is cleared first, so the
event is allowed and becomes the sole entry of the map. -/
theorem stepTimed_reset (st : ConnState) (t : Nat) (e : SockEvent)
    (hep : st.epoch < t / 60) :
    (stepTimed st t e).2 = true ∧
    (stepTimed st t e).1.counts = [(eventName e, 1)] ∧
    (stepTimed st t e).1.epoch = t / 60 := by
  have hlt : lookupCount ([] : List (String × Nat)) (eventName e) < eventLimit e := by
    have := limitFor_pos (eventName e)
    rw [eventLimit_eq_limitFor]
    simpa [lookupCount] using this
  simp only [stepTimed, if_pos hep]
  rw [checkRateLimit_of_lt _ _ _ (by simpa using hlt)]
  exact ⟨rfl, rfl, rfl⟩

/-- Unfolding `processedInEpoch` over a cons cell. -/
theorem processedInEpoch_cons (st : ConnState) (t : Nat) (e : SockEvent)
    (rest : List (Nat × SockEvent)) (n : String) (k : Nat) :
    processedInEpoch st ((t, e) :: rest) n k =
      (if (stepTimed st t e).2 && eventName e == n && t / 60 == k then 1 else 0) +
        processedInEpoch (stepTimed st t e).1 rest n k := rfl

/-- A false Boolean guard contributes nothing to the processed count. -/
theorem if_and_false_add {b : Bool} (x : Nat) (h : b = false) :
    (if b = true then 1 else 0) + x = x := by
  rw [h]
  simp

/-- A tick window that lies strictly before every event of the trace holds no
processed event. -/
theorem processedInEpoch_eq_zero_of_lt :
    ∀ (trace : List (Nat × SockEvent)) (st : ConnState) (n : String) (k : Nat),
      (∀ p ∈ trace, k < p.1 / 60) → processedInEpoch st trace n k = 0
  | [], _, _, _, _ => rfl
  | (t, e) :: rest, st, n, k, h => by
    have hk : k < t / 60 := h (t, e) (by simp)
    have hind : (t / 60 == k) = false := by
      rw [beq_eq_false_iff_ne]
      omega
    rw [processedInEpoch_cons]
    rw [if_and_false_add _ (by simp [hind] :
      ((stepTimed st t e).2 && eventName e == n && t / 60 == k) = false)]
    exact processedInEpoch_eq_zero_of_lt rest _ n k
      (fun p hp => h p (by simp [hp]))

/-- Core bound: under the fixed-interval reset discipline, within any one tick
window a connection processes at most `limitFor n` events named `n`.  The
two-sided statement threads the invariant that the live counter equals the
number of already-processed events of the current window. -/
theorem processedInEpoch_bound (trace : List (Nat × SockEvent)) :
    ∀ (st : ConnState) (n : String) (k : Nat),
      List.Pairwise (fun a b => a.1 ≤ b.1) trace →
      (∀ p ∈ trace, st.epoch ≤ p.1 / 60) →
      (∀ m, lookupCount st.counts m ≤ limitFor m) →
      (k = st.epoch →
        lookupCount st.counts n + processedInEpoch st trace n k ≤ limitFor n) ∧
      (k ≠ st.epoch → processedInEpoch st trace n k ≤ limitFor n) := by
  induction trace with
  | nil =>
    intro st n k _ _ hC
    refine ⟨fun _ => ?_, fun _ => ?_⟩
    · simpa [processedInEpoch] using hC n
    · simp [processedInEpoch]
  | cons he rest ih =>
    obtain ⟨t, e⟩ := he
    intro st n k hPw hEp hC
    obtain ⟨hhead, hPw'⟩ := List.pairwise_cons.mp hPw
    have hte : st.epoch ≤ t / 60 := hEp (t, e) (by simp)
    rcases Nat.lt_or_ge st.epoch (t / 60) with hres | hnores
    · -- a tick elapsed before this event: the counter map was cleared
      have hstep := stepTimed_reset st t e hres
      obtain ⟨hok, hcounts, hepoch⟩ := hstep
      have hEp' : ∀ p ∈ rest, (stepTimed st t e).1.epoch ≤ p.1 / 60 := by
        intro p hp
        rw [hepoch]
        exact Nat.div_le_div_right (hhead p hp)
      have hC' : ∀ m, lookupCount (stepTimed st t e).1.counts m ≤ limitFor m := by
        intro m
        rw [hcounts]
        by_cases hm : eventName e = m
        · subst hm
          simpa [lookupCount, List.find?] using limitFor_pos (eventName e)
        · have : ((eventName e : String) == m) = false := by simpa using hm
          simp [lookupCount, List.find?, this]
      have IH := ih (stepTimed st t e).1 n k hPw' hEp' hC'
      constructor
      · intro hk
        have hind : (t / 60 == k) = false := by
          rw [beq_eq_false_iff_ne]
          omega
        rw [processedInEpoch_cons]
        rw [if_and_false_add _ (by simp [hind] :
          ((stepTimed st t e).2 && eventName e == n && t / 60 == k) = false)]
        rw [processedInEpoch_eq_zero_of_lt rest _ n k ?_]
        · simpa using hC n
        · intro p hp
          have h1 : t ≤ p.1 := hhead p hp
          have h2 : t / 60 ≤ p.1 / 60 := Nat.div_le_div_right h1
          omega
      · intro hk
        by_cases hkt : k = t / 60
        · subst hkt
          rw [processedInEpoch_cons]
          have IH1 := IH.1 (by rw [hepoch])
          by_cases hn : eventName e = n
          · have hind : ((stepTimed st t e).2 && eventName e == n
                && t / 60 == t / 60) = true := by
              simp [hok, hn]
            rw [hind, if_pos rfl]
            have hl : lookupCount (stepTimed st t e).1.counts n = 1 := by
              rw [hcounts, ← hn]
              simp [lookupCount, List.find?]
            omega
          · have hnn : (eventName e == n) = false := by simpa using hn
            rw [if_and_false_add _ (by simp [hnn] :
              ((stepTimed st t e).2 && eventName e == n && t / 60 == t / 60)
                = false)]
            have hl : lookupCount (stepTimed st t e).1.counts n = 0 := by
              rw [hcounts]
              simp [lookupCount, List.find?, hnn]
            omega
        · rw [processedInEpoch_cons]
          have hind : (t / 60 == k) = false := by
            rw [beq_eq_false_iff_ne]
            exact fun hh => hkt hh.symm
          rw [if_and_false_add _ (by simp [hind] :
            ((stepTimed st t e).2 && eventName e == n && t / 60 == k) = false)]
          exact IH.2 (by rw [hepoch]; exact hkt)
    · -- no tick elapsed: this event belongs to the current window
      have hteq : t / 60 = st.epoch := Nat.le_antisymm hnores hte
      have hnores' : ¬ st.epoch < t / 60 := by omega
      rcases Nat.lt_or_ge (lookupCount st.counts (eventName e)) (eventLimit e)
        with hlt | hge
      · have hstep := stepTimed_noreset_ok st t e hnores' hlt
        obtain ⟨hok, hcounts, hepoch⟩ := hstep
        have hEp' : ∀ p ∈ rest, (stepTimed st t e).1.epoch ≤ p.1 / 60 := by
          intro p hp
          rw [hepoch]
          exact hEp p (by simp [hp])
        have hC' : ∀ m, lookupCount (stepTimed st t e).1.counts m ≤ limitFor m := by
          intro m
          rw [hcounts]
          by_cases hm : m = eventName e
          · subst hm
            rw [lookupCount_setCount_self]
            have := eventLimit_eq_limitFor e
            omega
          · rw [lookupCount_setCount_ne _ _ _ _ (by simpa using hm)]
            exact hC m
        have IH := ih (stepTimed st t e).1 n k hPw' hEp' hC'
        constructor
        · intro hk
          rw [processedInEpoch_cons]
          have IH1 := IH.1 (by rw [hepoch]; exact hk)
          by_cases hn : eventName e = n
          · have hind : ((stepTimed st t e).2 && eventName e == n
                && t / 60 == k) = true := by
              simp [hok, hn, hteq, hk]
            rw [hind, if_pos rfl]
            have hl : lookupCount (stepTimed st t e).1.counts n
                = lookupCount st.counts n + 1 := by
              rw [hcounts, ← hn, lookupCount_setCount_self]
            omega
          · have hnn : (eventName e == n) = false := by simpa using hn
            rw [if_and_false_add _ (by simp [hnn] :
              ((stepTimed st t e).2 && eventName e == n && t / 60 == k) = false)]
            have hl : lookupCount (stepTimed st t e).1.counts n
                = lookupCount st.counts n := by
              rw [hcounts]
              exact lookupCount_setCount_ne _ _ _ _
                (by rw [beq_eq_false_iff_ne]; exact fun hh => hn hh.symm)
            omega
        · intro hk
          rw [processedInEpoch_cons]
          have hind : (t / 60 == k) = false := by
            rw [beq_eq_false_iff_ne, hteq]
            exact fun hh => hk hh.symm
          rw [if_and_false_add _ (by simp [hind] :
            ((stepTimed st t e).2 && eventName e == n && t / 60 == k) = false)]
          exact IH.2 (by rw [hepoch]; exact hk)
      · have hstep := stepTimed_noreset_dropped st t e hnores' hge
        rw [processedInEpoch_cons, hstep]
        rw [if_and_false_add _ (by simp :
          ((((st, false) : ConnState × Bool)).2 && eventName e == n && t / 60 == k)
            = false)]
        exact ih st n k hPw' (fun p hp => hEp p (by simp [hp])) hC

/-- A rate-limited (dropped) event never changes room membership. -/
theorem stepTimed_dropped_rooms (st : ConnState) (t : Nat) (e : SockEvent)
    (h : (stepTimed st t e).2 = false) :
    (stepTimed st t e).1.rooms = st.rooms := by
  by_cases hres : st.epoch < t / 60
  · have hok := (stepTimed_reset st t e hres).1
    rw [hok] at h
    simp at h
  · rcases Nat.lt_or_ge (lookupCount st.counts (eventName e)) (eventLimit e)
      with hlt | hge
    · have hok := (stepTimed_noreset_ok st t e hres hlt).1
      rw [hok] at h
      simp at h
    · rw [stepTimed_noreset_dropped st t e hres hge]

/-- C8 counterexample: the limiter clears its counter on a fixed 60-second
interval, so a rolling one-minute window straddling the reset — here
`[30, 90)`, containing events at 59 s and 61 s — sees ten processed
`join-user-room` events, twice the cap of 5 the claim asserts for every
rolling window. -/
theorem socket_rolling_window_counterexample :
    processedIn connStart fxTrace "join-user-room" 30 90 = 10 ∧ ¬ (10 ≤ 5) := by
  decide

/-- C8 (amended): the per-connection limiter enforces its caps per fixed
60-second interval (tick window), not per rolling window: within each tick
window at most 5 `join-user-room` and at most 10 `join-content-room` /
`leave-content-room` events are processed, counted per event name; an event
refused by the limiter is dropped and never changes room membership. -/
theorem socket_rate_limit_fixed_window (trace : List (Nat × SockEvent))
    (hmono : List.Pairwise (fun a b => a.1 ≤ b.1) trace) :
    (∀ k, processedInEpoch connStart trace "join-user-room" k ≤ 5 ∧
          processedInEpoch connStart trace "join-content-room" k ≤ 10 ∧
          processedInEpoch connStart trace "leave-content-room" k ≤ 10) ∧
    (∀ (st : ConnState) (t : Nat) (e : SockEvent),
      (stepTimed st t e).2 = false → (stepTimed st t e).1.rooms = st.rooms) := by
  have hEp : ∀ p ∈ trace, connStart.epoch ≤ p.1 / 60 := by
    intro p _
    exact Nat.zero_le _
  have hC : ∀ m, lookupCount connStart.counts m ≤ limitFor m := by
    intro m
    have h0 : lookupCount connStart.counts m = 0 := rfl
    rw [h0]
    exact Nat.le_of_lt (limitFor_pos m)
  have l1 : limitFor "join-user-room" = 5 := by decide
  have l2 : limitFor "join-content-room" = 10 := by decide
  have l3 : limitFor "leave-content-room" = 10 := by decide
  constructor
  · intro k
    have hju := processedInEpoch_bound trace connStart "join-user-room" k hmono hEp hC
    have hjc := processedInEpoch_bound trace connStart "join-content-room" k hmono hEp hC
    have hlc := processedInEpoch_bound trace connStart "leave-content-room" k hmono hEp hC
    by_cases hk : k = connStart.epoch
    · have h1 := hju.1 hk
      have h2 := hjc.1 hk
      have h3 := hlc.1 hk
      rw [l1] at h1
      rw [l2] at h2
      rw [l3] at h3
      exact ⟨by omega, by omega, by omega⟩
    · have h1 := hju.2 hk
      have h2 := hjc.2 hk
      have h3 := hlc.2 hk
      rw [l1] at h1
      rw [l2] at h2
      rw [l3] at h3
      exact ⟨h1, h2, h3⟩
  · exact fun st t e h => stepTimed_dropped_rooms st t e h

/-- Witness for C8's amended claim at the concrete trace and window 0. -/
theorem socket_rate_limit_fixed_window_witness :
    processedInEpoch connStart fxTrace "join-user-room" 0 ≤ 5 :=
  ((socket_rate_limit_fixed_window fxTrace (by decide)).1 0).1

/-! ## C9 -/

/-- The redirect heuristic in Boolean form: with the `Date` strict-equality
disjunct identically false, only the bio tests remain, and an entirely empty
bio trims to empty. -/
theorem isNewUserCheck_iff (u : User) :
    isNewUserCheck u = true ↔ jsTrim (u.bio.getD "") = "" := by
  rw [isNewUserCheck]
  simp only [dateStrictEq, Bool.or_false, Bool.or_eq_true, beq_iff_eq]
  constructor
  · rintro (h | h)
    · rw [h]
      rfl
    · exact h
  · intro h
    exact Or.inr h

/-- The verify callback always stores `githubProfile.bio ?? ''` as the bio of
the user it hands to the redirect, whether it created or updated the row. -/
theorem upsertGithubUser_bio (db : DB) (now : Nat) (freshId : Id)
    (p : GithubProfile) (db' : DB) (u : User) (fresh : Bool)
    (h : upsertGithubUser db now freshId p = some (db', u, fresh)) :
    u.bio = some (p.bio.getD "") := by
  rw [upsertGithubUser] at h
  split at h
  · exact absurd h (by simp)
  · split at h
    · simp only [Option.some.injEq, Prod.mk.injEq] at h
      obtain ⟨_, hu, _⟩ := h
      rw [← hu]
    · simp only [Option.some.injEq, Prod.mk.injEq] at h
      obtain ⟨_, hu, _⟩ := h
      rw [← hu]

/-- C9 counterexample: the redirect destination is independent of whether the
callback freshly created the User row, in both directions.  An already
existing user (freshly-created = false) whose GitHub bio is null is
redirected to setup, and a freshly created user (freshly-created = true)
whose GitHub bio is non-empty is redirected to home — the `createdAt ===
updatedAt` disjunct compares two distinct `Date` objects and never fires. -/
theorem github_redirect_counterexample :
    (upsertGithubUser fxGitDB 5 "nu" fxGitProfile).map
      (fun r => (r.2.2, githubCallback r.2.1)) = some (false, Redirect.setup) ∧
    (upsertGithubUser fxEmptyDB 7 "nu" fxGitProfileBio).map
      (fun r => (r.2.2, githubCallback r.2.1)) = some (true, Redirect.home) := by
  decide

/-- C9 (amended): after any identity-provider callback the user is redirected
to the setup destination exactly when the upserted bio — `githubProfile.bio
?? ''` — is empty after trimming; whether the record was freshly created by
this callback plays no role, because the heuristic's `createdAt ===
updatedAt` disjunct compares two distinct `Date` objects and is always
false. -/
theorem github_redirect_heuristic (db : DB) (now : Nat) (freshId : Id)
    (p : GithubProfile) (db' : DB) (u : User) (fresh : Bool)
    (h : upsertGithubUser db now freshId p = some (db', u, fresh)) :
    githubCallback u = .setup ↔ jsTrim (p.bio.getD "") = "" := by
  have hbio : u.bio = some (p.bio.getD "") :=
    upsertGithubUser_bio db now freshId p db' u fresh h
  have hiff : isNewUserCheck u = true ↔ jsTrim (p.bio.getD "") = "" := by
    rw [isNewUserCheck_iff, hbio]
    rfl
  rw [githubCallback]
  by_cases hnew : isNewUserCheck u = true
  · rw [if_pos hnew]
    exact iff_of_true rfl (hiff.mp hnew)
  · rw [if_neg hnew]
    constructor
    · intro hh
      exact absurd hh (by simp)
    · intro hd
      exact absurd (hiff.mpr hd) hnew

/-- Witness for C9's amended claim, on both sides: the null-bio profile
creates a user who is sent to setup, and the bio-carrying profile creates a
user who is sent to home — fresh in both cases. -/
theorem github_redirect_heuristic_witness :
    githubCallback fxFreshUser = .setup ∧
    githubCallback fxFreshUserBio ≠ .setup := by
  constructor
  · exact (github_redirect_heuristic fxEmptyDB 7 "nu" fxGitProfile
      ⟨[fxFreshUser], [], [], [], [], [], [], [], [], [], []⟩ fxFreshUser true
      (by decide)).mpr (by decide)
  · intro hh
    have hd := (github_redirect_heuristic fxEmptyDB 7 "nu" fxGitProfileBio
      ⟨[fxFreshUserBio], [], [], [], [], [], [], [], [], [], []⟩ fxFreshUserBio true
      (by decide)).mp hh
    revert hd
    decide

/-! ## C10 -/

/-- C10: when a report request supplies a contentType and contentId that
resolve to existing content, any report it creates names the content's author
as the reported party — the caller-supplied reportedUserId is silently
overridden — and the self-report check is applied to that author: the author
reporting their own content is rejected with a 400 and nothing is written. -/
theorem report_targets_content_author (db : DB) (reporterId freshId : Id)
    (raw : RawReportBody) (v : ReportBody) (ct : ContentType) (cid a : Id)
    (hparse : reportSchemaParse raw = some v)
    (hct : v.contentType = some ct) (hcid : v.contentId = some cid)
    (ha : authorOf db ct cid = some a) :
    (a = reporterId → createReport db reporterId freshId raw = (400, db)) ∧
    ((createReport db reporterId freshId raw).1 = 201 →
      ((createReport db reporterId freshId raw).2.reports.head?).map
        (fun r => r.reportedId) = some a ∧
      (createReport db reporterId freshId raw).2.reports.tail = db.reports) := by
  by_cases hself : (v.reportedUserId == some reporterId) = true
  · constructor
    · intro _
      simp [createReport, hparse, hself]
    · intro hst
      simp only [createReport, hparse, hself, if_true] at hst
      simp at hst
  · have hself' : (v.reportedUserId == some reporterId) = false := by
      simpa using hself
    by_cases haself : (a == reporterId) = true
    · have haeq : a = reporterId := by simpa using haself
      constructor
      · intro _
        simp [createReport, hparse, hself', hct, hcid, ha, haeq]
      · intro hst
        simp only [createReport, hparse, hself', Bool.false_eq_true, if_false,
          hct, hcid, ha, haeq, beq_self_eq_true, if_true] at hst
        simp at hst
    · have haself' : ((some a : Option Id) == some reporterId) = false := by
        simpa using haself
      constructor
      · intro haeq
        rw [← haeq] at haself'
        simp at haself'
      · intro hst
        simp only [createReport, hparse, hself', Bool.false_eq_true, if_false,
          hct, hcid, ha, haself'] at hst ⊢
        split at hst
        · simp_all
        · simp at hst

/-- Witness for C10 at the concrete store: the report lands on the doc's
author even though the body names nobody. -/
theorem report_targets_content_author_witness :
    ((createReport fxReportDB fxReporter "r1" fxRawReportContent).2.reports.head?).map
      (fun r => r.reportedId) = some fxAuthor ∧
    (createReport fxReportDB fxReporter "r1" fxRawReportContent).2.reports.tail
      = fxReportDB.reports :=
  (report_targets_content_author fxReportDB fxReporter "r1" fxRawReportContent
    ⟨none, .SPAM, none, some .doc, some fxDocId⟩ .doc fxDocId fxAuthor
    (by decide) (by decide) (by decide) (by decide)).2 (by decide)

end Codegram
